import Mathlib

/-
Shallow embedding of the presentation state machine of the
`joeyates/photo-slideshow` repository.

The authoritative implementation is `src/src/photo-slideshow.js`
(the refactored version); `src/photo-slideshow.js` is the older
monolithic version, embedded here only where a claim cites it
(its `removeCurrent`, `next` and `previous`).

External collaborators (Viewer, Config, KeyWatcher, Logger) are not in
the repository sources; the few facts about them that the core needs
(`viewer.showIndex`, `viewer.nextIndex`, `viewer.preload` recording a
pending index, `viewer.showPreloaded` promoting it) are modelled from
the spec and flagged in the doc comments below.  JavaScript operations
that can throw (indexing `undefined` and reading `.url`) are embedded
as `Option`-returning functions, `none` standing for the thrown error.
-/

/-- An image descriptor; only the `url` field is relevant to the claims. -/
structure Image where
  url : String
  deriving Repr, DecidableEq

/-- The mutable state of the `PhotoSlideshow` class (refactored version),
together with the viewer-side fields the core reads and writes:
`showIndex` is `viewer.showIndex`, `pendingIndex` is the index recorded by
`viewer.preload` (Modelled from the spec: the display surface records
`pendingIndex = index` on `preload`), and `inFocus` models the JavaScript
object-identity test `this.images !== this.config.images` (entering focus
mode always installs a fresh array, so the test is `true` exactly after an
enter and `false` exactly after a leave). -/
structure Slideshow where
  configImages : List Image
  images : List Image
  notes : List String
  paused : Bool
  inFocus : Bool
  timeout : Int
  previousShow : Option Int
  showNextTimeout : Option Int
  showIndex : Option Nat
  pendingIndex : Option Nat
  deriving Repr, DecidableEq

/-- `PhotoSlideshow.MINIMUM_TIMEOUT = 500`. -/
def minimumTimeout : Int := 500

/-- `speedUp()` (src/src/photo-slideshow.js:197-204): no-op when
`timeout <= MINIMUM_TIMEOUT`, otherwise subtract 500.
The `+` key handler of the older version (src/photo-slideshow.js:112-121)
is the same computation. -/
def speedUp (t : Int) : Int :=
  if t ≤ minimumTimeout then t else t - 500

/-- `slowDown()` (src/src/photo-slideshow.js:192-195): add 500, unbounded. -/
def slowDown (t : Int) : Int := t + 500

/-- `this.images[index]` followed by the `currentImage` getter's null check
(src/src/photo-slideshow.js:33-39): `null` when `viewer.showIndex` is null,
otherwise the element (out-of-range indexing yields `undefined`, embedded
as `none`). -/
def currentImage (s : Slideshow) : Option Image :=
  match s.showIndex with
  | none => none
  | some i => s.images[i]?

/-- The dedup-append of `addNote` (src/src/photo-slideshow.js:122-134),
as a pure function of the ledger: push `url` unless already present. -/
def addNoteUrl (url : String) (notes : List String) : List String :=
  if url ∈ notes then notes else notes ++ [url]

/-- `addNote()` itself: no-op when there is no current image, otherwise
dedup-append the current image's url. -/
def addNote (s : Slideshow) : Slideshow :=
  match currentImage s with
  | none => s
  | some image => { s with notes := addNoteUrl image.url s.notes }

/-- The failure marker pushed by `imageFailed`
(src/src/photo-slideshow.js:379): the string `Missing <url>`. -/
def failureNote (url : String) : String := "Missing " ++ url

/-- The unconditional `this.notes.push(...)` of `imageFailed`. -/
def addFailureNote (url : String) (notes : List String) : List String :=
  notes ++ [failureNote url]

/-- `resetNotes()` (src/src/photo-slideshow.js:188-190). -/
def resetNotes (s : Slideshow) : Slideshow := { s with notes := [] }

/-- `removeImage(index)` (src/src/photo-slideshow.js:296-311).
The JavaScript guard `if (!index) return` is a truthiness test: it
returns early both for `null` (embedded as `none`) and for the number
`0`.  Then out-of-range indices (`index > length - 1`) and
single-element collections are refused; otherwise `splice(index, 1)`
removes the element, embedded as `List.eraseIdx`. -/
def removeImage (index : Option Nat) (images : List Image) : List Image :=
  match index with
  | none => images
  | some i =>
    if i = 0 then images
    else if i > images.length - 1 then images
    else if images.length = 1 then images
    else images.eraseIdx i

/-- `stopTimeout()` (src/src/photo-slideshow.js:332-337). -/
def stopTimeout (s : Slideshow) : Slideshow := { s with showNextTimeout := none }

/-- `preload(index)` (src/src/photo-slideshow.js:339-344): cancel any
pending timer, then hand `images[index]` to the display surface
(Modelled from the spec: `viewer.preload(item, index)` records
`pendingIndex = index`).  The caller must keep `index` in range; the
JavaScript would otherwise throw reading `.url` of `undefined`. -/
def preload (index : Nat) (s : Slideshow) : Slideshow :=
  { s with showNextTimeout := none, pendingIndex := some index }

/-- `next()` (src/src/photo-slideshow.js:322-330): take
`viewer.nextIndex` (Modelled from the spec: the display surface's next
index is `showIndex + 1`, §4.2), wrap to 0 when it reaches
`images.length`, and `preload` it.  `none` embeds the unmodelled case of
a null `showIndex` and an empty collection (where `preload` would throw). -/
def next (s : Slideshow) : Option Slideshow :=
  match s.showIndex with
  | none => none
  | some i =>
    let ni := if i + 1 ≥ s.images.length then 0 else i + 1
    if ni < s.images.length then some (preload ni s) else none

/-- `showPreloaded()` (src/src/photo-slideshow.js:370-375): clear the
timer, promote the prepared image (Modelled from the spec and from
`showNext` of the older version: `viewer.showPreloaded()` sets
`showIndex := pendingIndex` and clears `pendingIndex`), record
`previousShow = now`, then `next()`. -/
def showPreloaded (now : Int) (s : Slideshow) : Option Slideshow :=
  match s.pendingIndex with
  | none => none
  | some p =>
    next { s with showNextTimeout := none, showIndex := some p,
                  pendingIndex := none, previousShow := some now }

/-- `imageLoaded(image, index)` (src/src/photo-slideshow.js:350-368):
stop any timer; with no `previousShow`, show at once; otherwise compute
`remainder = timeout - (now - previousShow)` and either show at once
(`remainder < 0`) or schedule a one-shot timer for exactly `remainder`
ms (embedded as `showNextTimeout := some remainder`). -/
def imageLoaded (now : Int) (s : Slideshow) : Option Slideshow :=
  match s.previousShow with
  | none => showPreloaded now s
  | some prev =>
    let remainder := s.timeout - (now - prev)
    if remainder < 0 then showPreloaded now s
    else some { s with showNextTimeout := some remainder }

/-- `imageFailed(image, index)` (src/src/photo-slideshow.js:377-389):
push the `Missing <url>` note, `removeImage(index)`, re-derive the index
to preload (`0` when `index` equals the shrunk length, else `index`),
clear `previousShow` (`showPreloadingImageImmediatly`), and `preload`.
`none` embeds the throw when the re-derived index is out of range. -/
def imageFailed (url : String) (index : Nat) (s : Slideshow) : Option Slideshow :=
  let images' := removeImage (some index) s.images
  let nextIndex := if index = images'.length then 0 else index
  if nextIndex < images'.length then
    some { s with notes := addFailureNote url s.notes,
                  images := images',
                  previousShow := none,
                  showNextTimeout := none,
                  pendingIndex := some nextIndex }
  else none

/-- `removeCurrent()` (src/src/photo-slideshow.js:173-186): stop the
timer, `removeImage(viewer.showIndex)`, compute a wrapped `nextIndex`
(which the code then does not use), clear `previousShow`, and
`preload(index)` — the original `index`, not `nextIndex`.  `none` embeds
the throw when `showIndex` is null or out of range after removal. -/
def removeCurrent (s : Slideshow) : Option Slideshow :=
  match s.showIndex with
  | none => none
  | some i =>
    let images' := removeImage (some i) s.images
    if i < images'.length then
      some { s with images := images',
                    previousShow := none,
                    showNextTimeout := none,
                    pendingIndex := some i }
    else none

/-- `togglePause()` (src/src/photo-slideshow.js:274-286): when paused,
resume via `next()` and clear the flag; when running, stop the timer,
cancel the in-flight preparation (`viewer.cancelPreload()`, Modelled
from the spec: it clears the pending index), and set the flag. -/
def togglePause (s : Slideshow) : Option Slideshow :=
  if s.paused then
    (next s).map (fun s1 => { s1 with paused := false })
  else
    some { s with showNextTimeout := none, pendingIndex := none, paused := true }

/-- The effect of the regex replace `url.replace(/\/[^/]*$/, '')`
(src/src/photo-slideshow.js:231) on a character list: drop the final
`/` and everything after it; when the list holds no `/`, the regex does
not match and the list is unchanged. -/
def removeLastComponent (cs : List Char) : List Char :=
  match (cs.reverse).dropWhile (fun c => c ≠ '/') with
  | [] => cs
  | _ :: rest => rest.reverse

/-- The path computed when entering focus mode: the current url with its
final `/`-component removed. -/
def focusPath (url : String) : List Char := removeLastComponent url.data

/-- `String.startsWith` of the JavaScript filter, on character lists:
`startsWithChars p cs` is true when `p` is an initial segment of `cs`. -/
def startsWithChars : List Char → List Char → Bool
  | [], _ => true
  | _ :: _, [] => false
  | p :: ps, c :: cs => p = c && startsWithChars ps cs

/-- The filter installed on entering focus mode
(src/src/photo-slideshow.js:231-234):
`config.images.filter(i => i.url.startsWith(path))`. -/
def focusImages (current : Image) (full : List Image) : List Image :=
  full.filter (fun i => startsWithChars (focusPath current.url) i.url.data)

/-- JavaScript `Array.findIndex` on urls: the index of the first match,
or `-1` when there is none. -/
def findIndexUrl (url : String) (images : List Image) : Int :=
  match images.findIdx? (fun i => i.url = url) with
  | some k => (k : Int)
  | none => -1

/-- `toggleFocusMode()` (src/src/photo-slideshow.js:219-245): no-op when
there is no current image; otherwise stop the timer and cancel the
preload, install either the full set (leaving) or the filtered set
(entering), find the current url's index in the new set (JavaScript
`findIndex` gives `-1` when absent), wrap `nextIndex` to 0 from the last
slot, and `preload(nextIndex)`.  `none` embeds the throw when that
preload target is out of range. -/
def toggleFocusMode (s : Slideshow) : Option Slideshow :=
  match currentImage s with
  | none => some s
  | some current =>
    let images' := if s.inFocus then s.configImages
                   else focusImages current s.configImages
    let ci : Int := findIndexUrl current.url images'
    let ni : Int := if ci = (images'.length : Int) - 1 then 0 else ci + 1
    if 0 ≤ ni ∧ ni < (images'.length : Int) then
      some { s with images := images',
                    inFocus := !s.inFocus,
                    showNextTimeout := none,
                    pendingIndex := some ni.toNat }
    else none

/-- `removeCurrent()` of the older version
(src/photo-slideshow.js:151-162): refuse when `length <= 1`, otherwise
`splice(index, 1)` and reset the index to 0 when it equals the new
length plus one (the divergent wrap rule §9 notes). -/
def removeCurrentOld (index : Nat) (images : List Image) : List Image × Nat :=
  if images.length ≤ 1 then (images, index)
  else
    let images' := images.eraseIdx index
    let index' := if index = images'.length + 1 then 0 else index
    (images', index')

/-- `next()` of the older version (src/photo-slideshow.js:196-206), as a
pure function of the current index and the collection length. -/
def nextIndexOld (index len : Nat) : Nat :=
  if index < len - 1 then index + 1 else 0

/-- `previous()` of the older version (src/photo-slideshow.js:186-194),
as a pure function of the current index and the collection length. -/
def previousIndexOld (index len : Nat) : Nat :=
  if index < 1 then len - 1 else index - 1

/-- A concrete two-image running state, used by concrete evaluations. -/
def sampleState : Slideshow :=
  { configImages := [⟨"a"⟩, ⟨"b"⟩], images := [⟨"a"⟩, ⟨"b"⟩], notes := [],
    paused := false, inFocus := false, timeout := 1000,
    previousShow := some 5, showNextTimeout := none,
    showIndex := some 0, pendingIndex := some 1 }

/-- A concrete three-image running state showing image 0 of `[A,B,C]`. -/
def sampleState3 : Slideshow :=
  { configImages := [⟨"A"⟩, ⟨"B"⟩, ⟨"C"⟩], images := [⟨"A"⟩, ⟨"B"⟩, ⟨"C"⟩],
    notes := [], paused := false, inFocus := false, timeout := 1000,
    previousShow := some 5, showNextTimeout := none,
    showIndex := some 0, pendingIndex := some 1 }

/-- A concrete full-mode state whose two image urls lie in the sibling
directories `a/b/` and `a/bc/`, showing the first. -/
def focusSample : Slideshow :=
  { configImages := [⟨"a/b/x"⟩, ⟨"a/bc/y"⟩], images := [⟨"a/b/x"⟩, ⟨"a/bc/y"⟩],
    notes := [], paused := false, inFocus := false, timeout := 1000,
    previousShow := some 5, showNextTimeout := none,
    showIndex := some 0, pendingIndex := some 1 }

/-- The state `focusSample` reaches on entering focus mode. -/
def focusEntered : Slideshow :=
  { focusSample with inFocus := true, showNextTimeout := none, pendingIndex := some 1 }

/-! ## Theorems -/

/-- C10: for every collection of size greater than 1, `removeImage` with
index 0 (or a null index) leaves the collection completely unchanged —
the JavaScript truthiness guard `if (!index) return` makes removal of
the first element a no-op even though index 0 is in range. -/
theorem removeImage_zero_noop (images : List Image) (_h : 1 < images.length) :
    removeImage (some 0) images = images ∧ removeImage none images = images := by
  exact ⟨rfl, rfl⟩

/-- Witness for C10 at the concrete two-image collection. -/
theorem removeImage_zero_noop_witness :
    1 < ([⟨"a"⟩, ⟨"b"⟩] : List Image).length
      ∧ removeImage (some 0) [⟨"a"⟩, ⟨"b"⟩] = [⟨"a"⟩, ⟨"b"⟩]
      ∧ removeImage none [⟨"a"⟩, ⟨"b"⟩] = [⟨"a"⟩, ⟨"b"⟩] :=
  ⟨by decide, (removeImage_zero_noop [⟨"a"⟩, ⟨"b"⟩] (by decide)).1,
    (removeImage_zero_noop [⟨"a"⟩, ⟨"b"⟩] (by decide)).2⟩

/-- C7: on a collection of size 1 every removal (`removeImage` of the
refactored version, `removeCurrent` of the older version) is a no-op,
and in general `removeImage` never empties a non-empty collection. -/
theorem remove_singleton_noop (images : List Image) (idx : Option Nat) (j : Nat)
    (h : images.length = 1) :
    removeImage idx images = images
      ∧ removeCurrentOld j images = (images, j)
      ∧ ∀ (l : List Image) (k : Option Nat), l ≠ [] → removeImage k l ≠ [] := by
  refine ⟨?_, ?_, ?_⟩
  · cases idx with
    | none => rfl
    | some i =>
      by_cases hi : i = 0
      · simp [removeImage, hi]
      · simp only [removeImage]
        rw [if_neg hi, if_pos (by omega)]
  · unfold removeCurrentOld
    rw [if_pos (by omega)]
  · intro l k hl
    cases k with
    | none => exact hl
    | some i =>
      simp only [removeImage]
      split
      · exact hl
      · split
        · exact hl
        · split
          · exact hl
          · intro hc
            have hlp : 0 < l.length := List.length_pos.mpr hl
            have hil : i < l.length := by omega
            have hlc := congrArg List.length hc
            rw [List.length_eraseIdx] at hlc
            simp [hil] at hlc
            omega

/-- Witness for C7 at the singleton collection. -/
theorem remove_singleton_noop_witness :
    ([⟨"a"⟩] : List Image).length = 1
      ∧ removeImage (some 0) [⟨"a"⟩] = [⟨"a"⟩]
      ∧ removeCurrentOld 0 [⟨"a"⟩] = ([⟨"a"⟩], 0) :=
  ⟨by decide, (remove_singleton_noop [⟨"a"⟩] (some 0) 0 (by decide)).1,
    (remove_singleton_noop [⟨"a"⟩] (some 0) 0 (by decide)).2.1⟩

/-- C2 counterexample: starting from `timeoutMs = 700` (a value above the
floor but not a multiple of the 500 ms step), a single `speedUp` drives
`timeoutMs` to 200, strictly below `MINIMUM_TIMEOUT` — so the claim that
`timeoutMs` never becomes less than `MINIMUM_TIMEOUT` for every starting
value is false. -/
theorem speedUp_below_floor :
    speedUp 700 = 200 ∧ speedUp 700 < minimumTimeout := by decide

/-- Helper for C2: `speedUp` maps a positive multiple of 500 to a
positive multiple of 500. -/
theorem speedUp_step_mul (m : Int) (hm : 1 ≤ m) :
    ∃ m', 1 ≤ m' ∧ speedUp (500 * m) = 500 * m' := by
  by_cases h : 500 * m ≤ minimumTimeout
  · exact ⟨m, hm, by simp [speedUp, h]⟩
  · refine ⟨m - 1, ?_, ?_⟩
    · have h1 : minimumTimeout < 500 * m := lt_of_not_le h
      have h2 : (500 : Int) * 1 < 500 * m := by
        simpa [minimumTimeout] using h1
      have h3 : (1 : Int) < m := lt_of_mul_lt_mul_left h2 (by norm_num)
      omega
    · unfold speedUp
      rw [if_neg h]
      ring

/-- Helper for C2: iterating `speedUp` preserves being a positive
multiple of 500. -/
theorem speedUp_iter_mul (k : Nat) :
    ∀ m : Int, 1 ≤ m → ∃ m', 1 ≤ m' ∧ speedUp^[k] (500 * m) = 500 * m' := by
  induction k with
  | zero => exact fun m hm => ⟨m, hm, rfl⟩
  | succ n ih =>
    intro m hm
    obtain ⟨m1, hm1, hstep⟩ := speedUp_step_mul m hm
    obtain ⟨m2, hm2, hit⟩ := ih m1 hm1
    exact ⟨m2, hm2, by rw [Function.iterate_succ_apply, hstep, hit]⟩

/-- C2 (amended): when `timeoutMs` starts at a multiple of the 500 ms
step that is at least `MINIMUM_TIMEOUT`, repeatedly applying `speedUp`
never drives it below `MINIMUM_TIMEOUT`; and a `speedUp` attempted at or
below the floor is always a no-op. -/
theorem speedUp_floor (t m : Int) (hm : 1 ≤ m) (ht : t = 500 * m) (k : Nat) :
    minimumTimeout ≤ speedUp^[k] t
      ∧ ∀ u : Int, u ≤ minimumTimeout → speedUp u = u := by
  constructor
  · obtain ⟨m', hm', he⟩ := speedUp_iter_mul k m hm
    rw [ht, he]
    calc minimumTimeout = 500 * 1 := by norm_num [minimumTimeout]
      _ ≤ 500 * m' := mul_le_mul_of_nonneg_left hm' (by norm_num)
  · intro u hu
    simp [speedUp, hu]

/-- Witness for C2 at `timeoutMs = 5000` with three speed-ups. -/
theorem speedUp_floor_witness :
    (1 : Int) ≤ 10 ∧ (5000 : Int) = 500 * 10
      ∧ minimumTimeout ≤ speedUp^[3] 5000 ∧ speedUp 500 = 500 :=
  ⟨by norm_num, by norm_num,
    (speedUp_floor 5000 10 (by norm_num) (by norm_num) 3).1,
    (speedUp_floor 5000 10 (by norm_num) (by norm_num) 3).2 500 (by decide)⟩

/-- Helper for C8: for an in-range index, the older version's `next`
advances by one modulo the collection length. -/
theorem nextIndexOld_mod (i n : Nat) (hi : i < n) :
    nextIndexOld i n = (i + 1) % n := by
  unfold nextIndexOld
  by_cases h : i < n - 1
  · rw [if_pos h, Nat.mod_eq_of_lt (by omega)]
  · rw [if_neg h]
    have h1 : i + 1 = n := by omega
    rw [h1, Nat.mod_self]

/-- Helper for C8: iterating `next` from an in-range index adds the
iteration count modulo the collection length. -/
theorem nextIndexOld_iter (n : Nat) (hn : 0 < n) :
    ∀ (k i : Nat), i < n → (fun j => nextIndexOld j n)^[k] i = (i + k) % n := by
  intro k
  induction k with
  | zero =>
    intro i hi
    simp [Nat.mod_eq_of_lt hi]
  | succ p ih =>
    intro i hi
    rw [Function.iterate_succ_apply]
    show (fun j => nextIndexOld j n)^[p] (nextIndexOld i n) = (i + (p + 1)) % n
    rw [nextIndexOld_mod i n hi, ih ((i + 1) % n) (Nat.mod_lt _ hn), Nat.mod_add_mod]
    congr 1
    omega

/-- C8: for every non-empty collection and in-range index, the next-index
function composed with itself `length` times returns the original index,
and the previous-index function is its inverse step in both directions. -/
theorem next_previous_cycle (n i : Nat) (hn : 0 < n) (hi : i < n) :
    (fun j => nextIndexOld j n)^[n] i = i
      ∧ previousIndexOld (nextIndexOld i n) n = i
      ∧ nextIndexOld (previousIndexOld i n) n = i := by
  refine ⟨?_, ?_, ?_⟩
  · rw [nextIndexOld_iter n hn n i hi, Nat.add_mod_right, Nat.mod_eq_of_lt hi]
  · unfold nextIndexOld previousIndexOld
    split
    · split <;> omega
    · split <;> omega
  · unfold previousIndexOld nextIndexOld
    split
    · split <;> omega
    · split <;> omega

/-- Witness for C8 on a three-element collection at index 1. -/
theorem next_previous_cycle_witness :
    0 < 3 ∧ 1 < 3 ∧ (fun j => nextIndexOld j 3)^[3] 1 = 1
      ∧ previousIndexOld (nextIndexOld 1 3) 3 = 1
      ∧ nextIndexOld (previousIndexOld 1 3) 3 = 1 :=
  ⟨by decide, by decide, (next_previous_cycle 3 1 (by decide) (by decide)).1,
    (next_previous_cycle 3 1 (by decide) (by decide)).2.1,
    (next_previous_cycle 3 1 (by decide) (by decide)).2.2⟩

/-- C9: re-adding a url already in the note ledger leaves it unchanged
(so adding twice yields a single entry, order preserved), `resetNotes`
empties the ledger, and the failure marker `Missing <url>` is a string
distinct from the url itself, so a failure note never suppresses a
later manual note for the same url. -/
theorem notes_ledger (s : Slideshow) (notes : List String) (url : String)
    (h : url ∈ notes) :
    addNoteUrl url notes = notes
      ∧ addNoteUrl url (addNoteUrl url notes) = addNoteUrl url notes
      ∧ (resetNotes s).notes = []
      ∧ failureNote url ≠ url
      ∧ addNoteUrl url (addFailureNote url []) = [failureNote url, url] := by
  have hne : failureNote url ≠ url := by
    intro heq
    have hdata : "Missing ".data ++ url.data = url.data := by
      have hd := congrArg String.data heq
      simpa [failureNote, String.data_append] using hd
    have hlen := congrArg List.length hdata
    rw [List.length_append] at hlen
    have h8 : ("Missing ".data).length = 8 := by decide
    omega
  have hnm : url ∉ [failureNote url] := by
    intro hmem
    exact hne (List.mem_singleton.mp hmem).symm
  refine ⟨?_, ?_, rfl, hne, ?_⟩
  · simp [addNoteUrl, h]
  · simp [addNoteUrl, h]
  · simp only [addNoteUrl, addFailureNote, List.nil_append]
    rw [if_neg hnm]
    rfl

/-- Witness for C9 at the singleton ledger `["u"]`. -/
theorem notes_ledger_witness :
    "u" ∈ ["u"] ∧ addNoteUrl "u" ["u"] = ["u"] ∧ failureNote "u" ≠ "u" :=
  ⟨by decide, (notes_ledger sampleState ["u"] "u" (by decide)).1,
    (notes_ledger sampleState ["u"] "u" (by decide)).2.2.2.1⟩

/-- C1 counterexample: `imageFailed` for the item at index 0 of a
two-image collection leaves the collection size unchanged at 2 (the
JavaScript `if (!index)` guard in `removeImage` refuses index 0), so the
active collection size does not decrease by exactly 1; the re-issued
preload even targets the failed item itself. -/
theorem imageFailed_at_zero :
    (imageFailed "a" 0 sampleState).map (fun s => s.images.length) = some 2
      ∧ sampleState.images.length = 2
      ∧ (imageFailed "a" 0 sampleState).map (fun s => s.images.length)
          ≠ some (sampleState.images.length - 1)
      ∧ (imageFailed "a" 0 sampleState).map (fun s => s.pendingIndex)
          = some (some 0) := by decide

/-- Helper for C1: for an in-range index at least 1, `removeImage`
really erases the element. -/
theorem removeImage_in_range (images : List Image) (i : Nat)
    (h1 : 1 ≤ i) (h2 : i < images.length) :
    removeImage (some i) images = images.eraseIdx i := by
  simp only [removeImage]
  rw [if_neg (by omega), if_neg (by omega), if_neg (by omega)]

/-- C1 (amended): for every collection and every in-range failing index
that is at least 1, `imageFailed` shrinks the active collection by
exactly 1, appends the `Missing <url>` note, clears `previousShow`
(immediate-display semantics) and the timer, and re-issues preload for
the wrapped index (0 when the failed index now equals the shrunk length,
else the same index).  At index 0 the removal is a no-op (see the
counterexample). -/
theorem imageFailed_recovery (s : Slideshow) (url : String) (index : Nat)
    (h1 : 1 ≤ index) (h2 : index < s.images.length) :
    ∃ s', imageFailed url index s = some s'
      ∧ s'.images.length + 1 = s.images.length
      ∧ s'.images = s.images.eraseIdx index
      ∧ s'.notes = s.notes ++ [failureNote url]
      ∧ s'.previousShow = none
      ∧ s'.showNextTimeout = none
      ∧ s'.pendingIndex = some (if index = s.images.length - 1 then 0 else index) := by
  have hr := removeImage_in_range s.images index h1 h2
  have hlen : (s.images.eraseIdx index).length = s.images.length - 1 := by
    rw [List.length_eraseIdx]
    simp [h2]
  simp only [imageFailed, hr, hlen]
  by_cases hc : index = s.images.length - 1
  · rw [if_pos hc, if_pos (by omega)]
    exact ⟨_, rfl, by rw [hlen]; omega, rfl, rfl, rfl, rfl, rfl⟩
  · rw [if_neg hc, if_pos (by omega)]
    exact ⟨_, rfl, by rw [hlen]; omega, rfl, rfl, rfl, rfl, rfl⟩

/-- Witness for C1 at index 1 of the three-image collection `[A,B,C]`. -/
theorem imageFailed_recovery_witness :
    1 ≤ 1 ∧ 1 < sampleState3.images.length
      ∧ ∃ s', imageFailed "B" 1 sampleState3 = some s'
        ∧ s'.images.length + 1 = sampleState3.images.length
        ∧ s'.images = sampleState3.images.eraseIdx 1
        ∧ s'.notes = sampleState3.notes ++ [failureNote "B"]
        ∧ s'.previousShow = none
        ∧ s'.showNextTimeout = none
        ∧ s'.pendingIndex
            = some (if 1 = sampleState3.images.length - 1 then 0 else 1) :=
  ⟨by decide, by decide, imageFailed_recovery sampleState3 "B" 1 (by decide) (by decide)⟩

/-- C3: evaluating the code at the failing input of the scenario —
deleting the current image at index 0 of `[A,B,C]` — shows the
collection stays `[A,B,C]` (the `if (!index)` guard refuses index 0) and
the re-issued preload targets index 0, which still holds A, not B; the
spec's scenario (collection becomes `[B,C]`, B preloaded) is the clear
intent and the code diverges from it. -/
theorem removeCurrent_at_zero :
    (removeCurrent sampleState3).map (fun s => s.images)
        = some [⟨"A"⟩, ⟨"B"⟩, ⟨"C"⟩]
      ∧ (removeCurrent sampleState3).map (fun s => s.images) ≠ some [⟨"B"⟩, ⟨"C"⟩]
      ∧ (removeCurrent sampleState3).map (fun s => s.pendingIndex) = some (some 0)
      ∧ sampleState3.images[0]? = some ⟨"A"⟩
      ∧ (removeCurrent sampleState3).map (fun s => s.previousShow) = some none := by
  decide

/-- C4 counterexample: resuming from a paused state whose `previousShow`
is the stale timestamp 5 leaves `previousShow` at 5 — `togglePause` does
not clear it, so the claim that resume re-issues preload with
`lastShownAt` unset is false. -/
theorem togglePause_keeps_previousShow :
    (togglePause { sampleState with paused := true }).map (fun s => s.previousShow)
        = some (some 5)
      ∧ (togglePause { sampleState with paused := true }).map (fun s => s.previousShow)
          ≠ some none := by decide

/-- C4 (amended): resuming re-issues preload for the wrapped next index
(`showIndex + 1`, wrapping to 0 at the collection length) with the timer
cancelled and the paused flag cleared, but leaves `previousShow`
unchanged — so the prepared image is displayed immediately only through
`imageLoaded`'s elapsed-time computation against the stale timestamp,
not through cleared immediate-display semantics. -/
theorem togglePause_resume (s : Slideshow) (i : Nat)
    (hp : s.paused = true) (hi : s.showIndex = some i)
    (hlen : i < s.images.length) :
    ∃ s', togglePause s = some s'
      ∧ s'.paused = false
      ∧ s'.pendingIndex = some (if i + 1 ≥ s.images.length then 0 else i + 1)
      ∧ s'.previousShow = s.previousShow
      ∧ s'.showNextTimeout = none := by
  simp only [togglePause, next, hp, hi, if_pos]
  by_cases hw : i + 1 ≥ s.images.length
  · rw [if_pos hw, if_pos (by omega)]
    exact ⟨_, rfl, rfl, rfl, rfl, rfl⟩
  · rw [if_neg hw, if_pos (by omega)]
    exact ⟨_, rfl, rfl, rfl, rfl, rfl⟩

/-- Witness for C4 at the concrete paused two-image state. -/
theorem togglePause_resume_witness :
    ({ sampleState with paused := true } : Slideshow).paused = true
      ∧ ({ sampleState with paused := true } : Slideshow).showIndex = some 0
      ∧ 0 < ({ sampleState with paused := true } : Slideshow).images.length
      ∧ ∃ s', togglePause { sampleState with paused := true } = some s'
        ∧ s'.paused = false
        ∧ s'.pendingIndex = some
            (if 0 + 1 ≥ ({ sampleState with paused := true } : Slideshow).images.length
             then 0 else 0 + 1)
        ∧ s'.previousShow = ({ sampleState with paused := true } : Slideshow).previousShow
        ∧ s'.showNextTimeout = none :=
  ⟨by decide, by decide, by decide,
    togglePause_resume { sampleState with paused := true } 0 (by decide) (by decide) (by decide)⟩

/-- Helper for C5: when the pending index is in range, `showPreloaded`
succeeds, displays the prepared image, records the show time, clears the
timer and preloads the wrapped following index. -/
theorem showPreloaded_displays (s : Slideshow) (now : Int) (p : Nat)
    (hp : s.pendingIndex = some p) (hlen : p < s.images.length) :
    ∃ s', showPreloaded now s = some s'
      ∧ s'.showIndex = some p
      ∧ s'.previousShow = some now
      ∧ s'.showNextTimeout = none
      ∧ s'.pendingIndex = some (if p + 1 ≥ s.images.length then 0 else p + 1) := by
  simp only [showPreloaded, next, hp]
  by_cases hw : p + 1 ≥ s.images.length
  · rw [if_pos hw, if_pos (by omega)]
    exact ⟨_, rfl, rfl, rfl, rfl, rfl⟩
  · rw [if_neg hw, if_pos (by omega)]
    exact ⟨_, rfl, rfl, rfl, rfl, rfl⟩

/-- C5: on preparation success with the pending image in range — if
`previousShow` is absent the prepared image is displayed immediately;
otherwise with `remainder = timeout - (now - previousShow)` the image is
displayed immediately when `remainder < 0`, and otherwise the only state
change is a single one-shot timer scheduled for exactly `remainder` ms,
whose firing (`showPreloaded`) displays the prepared image. -/
theorem imageLoaded_spec (s : Slideshow) (now now2 prev : Int) (p : Nat)
    (hp : s.pendingIndex = some p) (hlen : p < s.images.length) :
    (s.previousShow = none →
        ∃ s', imageLoaded now s = some s'
          ∧ s'.showIndex = some p ∧ s'.previousShow = some now
          ∧ s'.showNextTimeout = none)
      ∧ (s.previousShow = some prev → s.timeout - (now - prev) < 0 →
        ∃ s', imageLoaded now s = some s'
          ∧ s'.showIndex = some p ∧ s'.previousShow = some now
          ∧ s'.showNextTimeout = none)
      ∧ (s.previousShow = some prev → 0 ≤ s.timeout - (now - prev) →
        imageLoaded now s = some { s with showNextTimeout := some (s.timeout - (now - prev)) }
          ∧ ∃ s'', showPreloaded now2 { s with showNextTimeout := some (s.timeout - (now - prev)) } = some s''
            ∧ s''.showIndex = some p ∧ s''.previousShow = some now2) := by
  refine ⟨?_, ?_, ?_⟩
  · intro hnone
    obtain ⟨s', h1, h2, h3, h4, _⟩ := showPreloaded_displays s now p hp hlen
    refine ⟨s', ?_, h2, h3, h4⟩
    simp only [imageLoaded, hnone]
    exact h1
  · intro hprev hrem
    obtain ⟨s', h1, h2, h3, h4, _⟩ := showPreloaded_displays s now p hp hlen
    refine ⟨s', ?_, h2, h3, h4⟩
    simp only [imageLoaded, hprev]
    rw [if_pos hrem]
    exact h1
  · intro hprev hrem
    constructor
    · simp only [imageLoaded, hprev]
      rw [if_neg (by omega)]
    · obtain ⟨s'', h1, h2, h3, _, _⟩ :=
        showPreloaded_displays { s with showNextTimeout := some (s.timeout - (now - prev)) }
          now2 p hp hlen
      exact ⟨s'', h1, h2, h3⟩

/-- Witness for C5: the immediate path at a state with no
`previousShow`, and the scheduled path at the concrete running state
(timeout 1000, shown at 5, loaded at 200, remainder 805). -/
theorem imageLoaded_spec_witness :
    (∃ s', imageLoaded 200 { sampleState with previousShow := none } = some s'
      ∧ s'.showIndex = some 1 ∧ s'.previousShow = some 200
      ∧ s'.showNextTimeout = none)
    ∧ (imageLoaded 200 sampleState
          = some { sampleState with showNextTimeout := some (sampleState.timeout - (200 - 5)) }
      ∧ ∃ s'', showPreloaded 999
            { sampleState with showNextTimeout := some (sampleState.timeout - (200 - 5)) } = some s''
        ∧ s''.showIndex = some 1 ∧ s''.previousShow = some 999) :=
  ⟨(imageLoaded_spec { sampleState with previousShow := none } 200 0 0 1 rfl (by decide)).1 rfl,
    (imageLoaded_spec sampleState 200 999 5 1 rfl (by decide)).2.2 rfl (by decide)⟩

/-- Helper for C6: `startsWithChars p l` holds exactly when `l` extends
`p` by some tail. -/
theorem startsWithChars_iff (p : List Char) :
    ∀ l : List Char, startsWithChars p l = true ↔ ∃ t, l = p ++ t := by
  induction p with
  | nil =>
    intro l
    simp [startsWithChars]
  | cons a ps ih =>
    intro l
    cases l with
    | nil =>
      simp [startsWithChars]
    | cons b bs =>
      simp only [startsWithChars, Bool.and_eq_true, decide_eq_true_eq, ih,
        List.cons_append, List.cons.injEq]
      constructor
      · rintro ⟨hab, t, ht⟩
        exact ⟨t, hab.symm, ht⟩
      · rintro ⟨t, hab, ht⟩
        exact ⟨hab.symm, t, ht⟩

/-- C6 counterexample: entering focus mode from the reference image
`a/b/x` keeps the image `a/bc/y` in the active set, although its url
does not start with `a/b/` — the characters of the reference url up to
and including the final `/` — because the code filters on the prefix
without the final slash. -/
theorem toggleFocusMode_prefix_cex :
    (toggleFocusMode focusSample).map (fun s => s.images)
        = some [⟨"a/b/x"⟩, ⟨"a/bc/y"⟩]
      ∧ startsWithChars ("a/b/".data) ("a/bc/y".data) = false
      ∧ currentImage focusSample = some ⟨"a/b/x"⟩
      ∧ focusSample.inFocus = false := by decide

/-- C6 (amended): if the reference item is absent, entering focus mode
is a no-op; otherwise entering focus mode sets the active set to exactly
those configured items whose url starts with the reference url's path
with the final `/`-component removed — the characters up to but
excluding the final `/` (so items in sibling directories extending that
prefix are also included). -/
theorem toggleFocusMode_spec (s : Slideshow) (c : Image) :
    (currentImage s = none → toggleFocusMode s = some s)
      ∧ (s.inFocus = false → currentImage s = some c →
        ∀ s', toggleFocusMode s = some s' →
          ∀ i, i ∈ s'.images ↔ (i ∈ s.configImages ∧ ∃ t, i.url.data = focusPath c.url ++ t)) := by
  constructor
  · intro h
    simp only [toggleFocusMode, h]
  · intro hf hc s' hs' i
    simp only [toggleFocusMode, hc, hf, Bool.false_eq_true, if_false] at hs'
    have himg : s'.images = focusImages c s.configImages := by
      split at hs'
      · split at hs'
        · exact (congrArg Slideshow.images (Option.some.inj hs')).symm
        · exact absurd hs' (by simp)
      · split at hs'
        · exact (congrArg Slideshow.images (Option.some.inj hs')).symm
        · exact absurd hs' (by simp)
    rw [himg, focusImages, List.mem_filter, startsWithChars_iff]

/-- Witness for C6: the no-op at a state with no current image, and the
membership characterization of the focus set entered from `a/b/x`,
evaluated at the sibling-directory image `a/bc/y`. -/
theorem toggleFocusMode_spec_witness :
    toggleFocusMode { focusSample with showIndex := none }
        = some { focusSample with showIndex := none }
      ∧ ((⟨"a/bc/y"⟩ : Image) ∈ focusEntered.images
          ↔ ((⟨"a/bc/y"⟩ : Image) ∈ focusSample.configImages
            ∧ ∃ t, ("a/bc/y" : String).data = focusPath ("a/b/x" : String) ++ t)) :=
  ⟨(toggleFocusMode_spec { focusSample with showIndex := none } ⟨"a/b/x"⟩).1 rfl,
    (toggleFocusMode_spec focusSample ⟨"a/b/x"⟩).2 rfl (by decide) focusEntered
      (by decide) ⟨"a/bc/y"⟩⟩
